import Mathlib

/-!
Verification development for the Holiday & Lunar-Date Classification Engine
of a Korean calendar application (source: src/components/Calendar.tsx).

Modelling conventions:
* A solar calendar day is an integer: the number of days since 1970-01-01
  (the value JS Date arithmetic and toDateString comparison work with).
* jsDate year monthIndex day models the JS constructor
  new Date(year, monthIndex, day) including its normalization of
  out-of-range month indices and day numbers.
* civilFromDays inverts the day count back to a (year, month, day) triple
  (the getFullYear / getMonth()+1 / getDate() accessors).
* dow models Date.getDay (0 = Sunday .. 6 = Saturday).
* The external solar-to-lunar converter (korean-lunar-calendar) is an
  arbitrary parameter of type Conv; a failed conversion is Option.none,
  modelling the try/catch blocks around setSolarDate/getLunarCalendar.
  It receives the raw (year, month, day) triple exactly as the code
  passes it (the code sometimes passes non-normalized triples).
* The external holiday source (date-holidays) is an arbitrary function
  from year to entry list; each entry's date string is modelled by its
  calendar day number, since the code only compares via toDateString.
* The unbounded while-loop of findNextWorkday is modelled with explicit
  fuel.  The engine only ever compares the walk's result against a target
  at most 7 days after the origin, and the walk visits consecutive days,
  so fuel 8 yields exactly the comparison the unbounded loop computes.
-/

/-- Days since 1970-01-01 of a civil Gregorian date with month in 1..12
(standard days-from-civil computation, floor division throughout). -/
def daysFromCivil (y m d : Int) : Int :=
  let y' := if m ≤ 2 then y - 1 else y
  let era := Int.fdiv y' 400
  let yoe := y' - era * 400
  let mp := Int.fmod (m + 9) 12
  let doy := Int.fdiv (153 * mp + 2) 5 + d - 1
  let doe := yoe * 365 + Int.fdiv yoe 4 - Int.fdiv yoe 100 + doy
  era * 146097 + doe - 719468

/-- Model of the JS constructor new Date(year, monthIndex, day): the month
index (0-based, any integer) and the day number (any integer) are folded
into the resulting calendar day exactly as JS normalizes them. -/
def jsDate (year monthIndex day : Int) : Int :=
  let ym := year + Int.fdiv monthIndex 12
  let m := Int.fmod monthIndex 12 + 1
  daysFromCivil ym m day

/-- Civil (year, month 1..12, day) triple of a day count: models the
getFullYear / getMonth()+1 / getDate() accessors of a JS Date. -/
def civilFromDays (z0 : Int) : Int × Int × Int :=
  let z := z0 + 719468
  let era := Int.fdiv z 146097
  let doe := z - era * 146097
  let yoe := Int.fdiv (doe - Int.fdiv doe 1460 + Int.fdiv doe 36524 - Int.fdiv doe 146096) 365
  let y := yoe + era * 400
  let doy := doe - (365 * yoe + Int.fdiv yoe 4 - Int.fdiv yoe 100)
  let mp := Int.fdiv (5 * doy + 2) 153
  let d := doy - Int.fdiv (153 * mp + 2) 5 + 1
  let m := mp + (if mp < 10 then 3 else -9)
  (if m ≤ 2 then y + 1 else y, m, d)

/-- Day of week of a day count, as Date.getDay: 0 = Sunday .. 6 = Saturday
(1970-01-01 was a Thursday, weekday 4). -/
def dow (n : Int) : Int :=
  Int.fmod (n + 4) 7

/-- Character-list version of startsWith. -/
def charsHavePrefix : List Char → List Char → Bool
  | [], _ => true
  | _ :: _, [] => false
  | a :: as, b :: bs => a == b && charsHavePrefix as bs

/-- Character-list containment: the needle occurs contiguously in the
haystack. -/
def charsContain (needle : List Char) : List Char → Bool
  | [] => charsHavePrefix needle []
  | b :: bs => charsHavePrefix needle (b :: bs) || charsContain needle bs

/-- JS String.prototype.includes: the second string occurs as a contiguous
substring of the first. -/
def strIncludes (s sub : String) : Bool :=
  charsContain sub.toList s.toList

/-- Lunar date as returned by the converter; the engine only reads
month and day. -/
structure LunarDate where
  month : Int
  day : Int
deriving DecidableEq

/-- A raw holiday entry from the external holiday source
(date-holidays getHolidays(year)): solar calendar day, name, and the
substitute flag the source itself sets. -/
structure RawEntry where
  date : Int
  name : String
  substitute : Bool
deriving DecidableEq

/-- The holidayType values of the code; empty models the TS empty
string (no type assigned). -/
inductive HolidayType where
  | normal
  | substituteDay
  | lunarNewYear
  | chuseok
  | empty
deriving DecidableEq

/-- A (name, type) result pair, as returned by getLunarHolidayInfo and
getSubstituteHolidayInfo. -/
structure HolidayInfo where
  name : String
  type : HolidayType
deriving DecidableEq

/-- The per-date output of getAllHolidayInfo. -/
structure Classification where
  name : String
  names : List String
  type : HolidayType
deriving DecidableEq

/-- The substitution-group values returned by getHolidaySubstituteType:
full, sunday_only and none in the code. -/
inductive SubGroup where
  | full
  | sundayOnly
  | noSub
deriving DecidableEq

/-- A holiday at an origin date tagged with its substitution group
(the holidaysOnDate entries of checkForSubstituteHoliday). -/
structure TaggedHoliday where
  name : String
  type : SubGroup
deriving DecidableEq

/-- The external solar-to-lunar converter: raw (year, month, day) in,
optional lunar date out; none models a thrown conversion error. -/
def Conv : Type := Int → Int → Int → Option LunarDate

/-- Converter applied to the civil triple of a day count, modelling the
pattern setSolarDate(d.getFullYear(), d.getMonth()+1, d.getDate()). -/
def convDay (conv : Conv) (n : Int) : Option LunarDate :=
  let c := civilFromDays n
  conv c.1 c.2.1 c.2.2

/-- Probe test used by getLunarHolidayInfo: the probed neighbour date
converts to lunar month 1, day 1; a failed conversion counts as no
match for that probe only. -/
def probeSeollal (o : Option LunarDate) : Bool :=
  match o with
  | some l => l.month == 1 && l.day == 1
  | none => false

/-- Probe test used by getLunarDate: the next day converts to lunar
day 1 (so the original date is the last day of its lunar month); a
failed conversion counts as not a boundary. -/
def probeDay1 (o : Option LunarDate) : Bool :=
  match o with
  | some l => l.day == 1
  | none => false

/-- Marker string of the code, formatted from a lunar month and day. -/
def lunarMarkerText (lm ld : Int) : String :=
  s!"음 {lm}.{ld}"

/-- getLunarDate of the code: the lunar marker string for a date, empty
when the date is not lunar day 1, 15 or the last day of its lunar month,
or when the converter fails on the date itself. -/
def getLunarDate (conv : Conv) (year month day : Int) : String :=
  match conv year month day with
  | none => ""
  | some l =>
    let lm := l.month
    let ld := l.day
    if ld == 1 || ld == 15 then lunarMarkerText lm ld
    else if probeDay1 (convDay conv (jsDate year (month - 1) (day + 1))) then lunarMarkerText lm ld
    else ""

/-- getLunarHolidayInfo of the code: the lunar-span holiday at a date.
Rule order as in the code: Seollal day, eve probe (+1), day-after
probe (-1), then the Chuseok 8/14-16 window; converter failure on the
date itself yields the empty result, failure on a probe only makes that
probe miss. -/
def getLunarHolidayInfo (conv : Conv) (year month day : Int) : HolidayInfo :=
  match conv year month day with
  | none => ⟨"", HolidayType.empty⟩
  | some l =>
    if l.month == 1 && l.day == 1 then ⟨"설날", HolidayType.lunarNewYear⟩
    else if probeSeollal (convDay conv (jsDate year (month - 1) (day + 1))) then
      ⟨"설날 연휴", HolidayType.lunarNewYear⟩
    else if probeSeollal (convDay conv (jsDate year (month - 1) (day - 1))) then
      ⟨"설날 연휴", HolidayType.lunarNewYear⟩
    else if l.month == 8 && (l.day == 14 || l.day == 15 || l.day == 16) then
      if l.day == 15 then ⟨"추석", HolidayType.chuseok⟩
      else ⟨"추석 연휴", HolidayType.chuseok⟩
    else ⟨"", HolidayType.empty⟩

/-- getHolidaySubstituteType of the code: the substitution group of a
holiday name, decided by substring containment against three fixed
name lists. -/
def getHolidaySubstituteType (holidayName : String) : SubGroup :=
  let group1 := ["삼일절", "3·1절", "광복절", "개천절", "한글날", "어린이날"]
  let group2 := ["설날", "추석"]
  let group3 := ["신정", "부처님 오신날", "현충일", "기독탄신일", "성탄절"]
  if group1.any (fun h => strIncludes holidayName h) then SubGroup.full
  else if group2.any (fun h => strIncludes holidayName h) then SubGroup.sundayOnly
  else if group3.any (fun h => strIncludes holidayName h) then SubGroup.noSub
  else SubGroup.noSub

/-- isDateHoliday of the code: the date matches a source entry whose name
does not contain the retired Constitution Day name, or carries a
lunar-span holiday (converter applied to the normalized civil triple). -/
def isDateHoliday (conv : Conv) (holidayList : List RawEntry) (date : Int) : Bool :=
  holidayList.any (fun h => h.date == date && !(strIncludes h.name "제헌절"))
  || (let c := civilFromDays date
      (getLunarHolidayInfo conv c.1 c.2.1 c.2.2).name != "")

/-- Body of the while-loop of findNextWorkday, with fuel: starting at a
candidate day, skip Saturdays, Sundays and holidays one day at a time;
none when the fuel runs out. -/
def findNextWorkdayAux (conv : Conv) (holidayList : List RawEntry) :
    Nat → Int → Option Int
  | 0, _ => none
  | Nat.succ f, nd =>
    let w := dow nd
    if w == 0 || w == 6 then findNextWorkdayAux conv holidayList f (nd + 1)
    else if !(isDateHoliday conv holidayList nd) then some nd
    else findNextWorkdayAux conv holidayList f (nd + 1)

/-- findNextWorkday of the code: the first weekday after fromDate that is
not a holiday, bounded by fuel (the walk visits consecutive days, so any
comparison against a target within the fuel window is exact). -/
def findNextWorkday (conv : Conv) (holidayList : List RawEntry)
    (fuel : Nat) (fromDate : Int) : Option Int :=
  findNextWorkdayAux conv holidayList fuel (fromDate + 1)

/-- Holiday collection step of checkForSubstituteHoliday: source entries
matching the origin (Constitution Day skipped), in list order, then the
lunar-span holiday if present, each tagged with its substitution group. -/
def holidaysOnDate (conv : Conv) (holidayList : List RawEntry) (origin : Int) :
    List TaggedHoliday :=
  (holidayList.filterMap (fun h =>
    if h.date == origin && !(strIncludes h.name "제헌절") then
      some ⟨h.name, getHolidaySubstituteType h.name⟩
    else none))
  ++ (let c := civilFromDays origin
      let li := getLunarHolidayInfo conv c.1 c.2.1 c.2.2
      if li.name != "" then [⟨li.name, getHolidaySubstituteType li.name⟩] else [])

/-- shouldCreateSubstitute condition of checkForSubstituteHoliday: some
collected holiday requires a substitute day given the origin's weekday
and the co-occurring holidays. -/
def shouldCreateSubstitute (lst : List TaggedHoliday) (originalDayOfWeek : Int) : Bool :=
  lst.any (fun h =>
    match h.type with
    | SubGroup.noSub => false
    | SubGroup.full =>
      originalDayOfWeek == 0 || originalDayOfWeek == 6 || decide (1 < lst.length)
    | SubGroup.sundayOnly =>
      if originalDayOfWeek == 0 then true
      else if decide (1 < lst.length) then
        lst.any (fun other =>
          !(strIncludes other.name "설날") && !(strIncludes other.name "추석"))
      else false)

/-- checkForSubstituteHoliday of the code (its isSubstitute field): the
origin carries holidays, one of them requires substitution, and the next
workday after the origin is the target date. -/
def checkForSubstituteHoliday (conv : Conv) (holidayList : List RawEntry)
    (originalDate targetDate : Int) : Bool :=
  let lst := holidaysOnDate conv holidayList originalDate
  if lst.length == 0 then false
  else if shouldCreateSubstitute lst (dow originalDate) then
    findNextWorkday conv holidayList 8 originalDate == some targetDate
  else false

/-- The daysBack loop of getSubstituteHolidayInfo: offsets are tried
nearest-first and the first success returns immediately. -/
def substLoop (conv : Conv) (holidayList : List RawEntry) (target : Int) :
    Int → Nat → HolidayInfo
  | _, 0 => ⟨"", HolidayType.empty⟩
  | daysBack, Nat.succ r =>
    if checkForSubstituteHoliday conv holidayList (target - daysBack) target then
      ⟨"대체공휴일", HolidayType.substituteDay⟩
    else substLoop conv holidayList target (daysBack + 1) r

/-- getSubstituteHolidayInfo of the code: empty on weekends, empty when
the date is itself a holiday, otherwise the bounded 7-day lookback. -/
def getSubstituteHolidayInfo (conv : Conv) (year month day : Int)
    (holidayList : List RawEntry) : HolidayInfo :=
  let targetDate := jsDate year (month - 1) day
  let dayOfWeek := dow targetDate
  if dayOfWeek < 1 || dayOfWeek > 5 then ⟨"", HolidayType.empty⟩
  else if isDateHoliday conv holidayList targetDate then ⟨"", HolidayType.empty⟩
  else substLoop conv holidayList targetDate 1 7

/-- Insertion into the uniqueHolidays set of the code: JS Set.add keeps
insertion order and drops duplicates. -/
def insertUnique (l : List String) (s : String) : List String :=
  if s ∈ l then l else l ++ [s]

/-- Condition of the aggregator's Chuseok filter: the conversion of the
query triple gives lunar month 9, day 14, 15 or 16 (a failed conversion
keeps the entry). -/
def isLunar9Span (o : Option LunarDate) : Bool :=
  match o with
  | some l => l.month == 9 && (l.day == 14 || l.day == 15 || l.day == 16)
  | none => false

/-- Primary type the aggregator assigns from a seed source entry: the
source substitute flag wins, then the 설날/신정 names, then 추석, else
normal. -/
def seedTypeFor (h : RawEntry) : HolidayType :=
  if h.substitute then HolidayType.substituteDay
  else if strIncludes h.name "설날" || strIncludes h.name "신정" then HolidayType.lunarNewYear
  else if strIncludes h.name "추석" then HolidayType.chuseok
  else HolidayType.normal

/-- One step of the aggregator's seed loop over the source entries. -/
def seedStep (targetDate : Int) (l9 : Bool)
    (acc : List String × HolidayType) (h : RawEntry) : List String × HolidayType :=
  if h.date == targetDate then
    if strIncludes h.name "제헌절" then acc
    else if strIncludes h.name "추석" && l9 then acc
    else (insertUnique acc.1 h.name,
          if acc.2 == HolidayType.empty then seedTypeFor h else acc.2)
  else acc

/-- getAllHolidayInfo of the code: seed the name set and primary type
from the year's source entries (Constitution Day and lunar-9 Chuseok
entries skipped), then add the lunar-span holiday unless a same-family
name is present, then, only if the set is still empty, consult the
substitute-holiday search. -/
def getAllHolidayInfo (conv : Conv) (src : Int → List RawEntry)
    (year month day : Int) : Classification :=
  let holidayList := src year
  let targetDate := jsDate year (month - 1) day
  let l9 := isLunar9Span (conv year month day)
  let acc := holidayList.foldl (seedStep targetDate l9) ([], HolidayType.empty)
  let li := getLunarHolidayInfo conv year month day
  let acc2 :=
    if li.name != "" then
      if acc.1.any (fun h =>
          (strIncludes h "추석" && strIncludes li.name "추석")
          || (strIncludes h "설날" && strIncludes li.name "설날")) then acc
      else (insertUnique acc.1 li.name,
            if acc.2 == HolidayType.empty then li.type else acc.2)
    else acc
  let acc3 :=
    if acc2.1.length == 0 then
      let si := getSubstituteHolidayInfo conv year month day holidayList
      if si.name != "" then (insertUnique acc2.1 si.name, si.type) else acc2
    else acc2
  ⟨acc3.1.headD "", acc3.1, acc3.2⟩

/-- Filter deciding whether a source entry survives the aggregator's seed
loop for a target date: the entry's day matches, its name does not contain
the Constitution Day name, and it is not a Chuseok-named entry on a date
whose lunar conversion lands in the month-9 day-14..16 window. -/
def seedPasses (targetDate : Int) (l9 : Bool) (h : RawEntry) : Bool :=
  h.date == targetDate && !(strIncludes h.name "제헌절")
    && !(strIncludes h.name "추석" && l9)

/-- Source entries contributing to the seed set of the aggregator for a
query date, in source order. -/
def seedEntries (conv : Conv) (src : Int → List RawEntry) (year month day : Int) :
    List RawEntry :=
  (src year).filter
    (seedPasses (jsDate year (month - 1) day) (isLunar9Span (conv year month day)))

/-- Insertion-ordered deduplication, the JS Set-of-strings semantics. -/
def dedupKeepFirst (l : List String) : List String :=
  l.foldl insertUnique []

/-- Primary type contributed by the seed set: that of its first entry,
empty when there is none. -/
def seedTypeOf : List RawEntry → HolidayType
  | [] => HolidayType.empty
  | h :: _ => seedTypeFor h

/-- Classification composed in the specification's step order (section
4.5): seed names and primary type from the cleaned source entries of the
date, then the lunar-span name unless a same-family name is present, then
the substitute search only if the set is still empty.  The seed primary
type mapping follows the code: a name containing 신정 is also typed
LUNAR_NEW_YEAR. -/
def classifySpec (conv : Conv) (src : Int → List RawEntry) (year month day : Int) :
    Classification :=
  let seed := seedEntries conv src year month day
  let names0 := dedupKeepFirst (seed.map RawEntry.name)
  let type0 := seedTypeOf seed
  let li := getLunarHolidayInfo conv year month day
  let sameFamily := names0.any (fun h =>
    (strIncludes h "추석" && strIncludes li.name "추석")
    || (strIncludes h "설날" && strIncludes li.name "설날"))
  let addLunar := li.name != "" && !sameFamily
  let names1 := if addLunar then insertUnique names0 li.name else names0
  let type1 :=
    if addLunar && type0 == HolidayType.empty then li.type else type0
  if names1.length == 0 then
    let si := getSubstituteHolidayInfo conv year month day (src year)
    if si.name != "" then ⟨si.name, [si.name], si.type⟩
    else ⟨"", [], HolidayType.empty⟩
  else ⟨names1.headD "", names1, type1⟩

/-- Effect of one passing entry on the aggregator's accumulator: record
the name, set the primary type if still unset. -/
def seedApply (acc : List String × HolidayType) (h : RawEntry) :
    List String × HolidayType :=
  (insertUnique acc.1 h.name,
   if acc.2 == HolidayType.empty then seedTypeFor h else acc.2)

/-- A converter that always fails, for concrete scenarios without lunar
holidays. -/
def convNone : Conv := fun _ _ _ => none

/-- Holiday source for the Liberation Day scenario: 2026-08-15 (a
Saturday, day 20680) carries 광복절. -/
def srcLib : Int → List RawEntry :=
  fun y => if y == 2026 then [⟨20680, "광복절", false⟩] else []

/-- Holiday source with a source-flagged substitute entry on Saturday
2025-01-04 (day 20092). -/
def srcFlagged : Int → List RawEntry :=
  fun y => if y == 2025 then [⟨20092, "임시공휴일", true⟩] else []

/-- Holiday source with a New Year entry (신정) on 2025-01-01
(day 20089). -/
def srcSinjeong : Int → List RawEntry :=
  fun y => if y == 2025 then [⟨20089, "신정", false⟩] else []

/-- Converter reporting lunar month 9, day 14 for every date, for the
misclassified-Chuseok scenario. -/
def convLunar9 : Conv := fun _ _ _ => some ⟨9, 14⟩

/-- Holiday source with a Chuseok-named entry on 2025-10-10
(day 20371). -/
def srcFakeChuseok : Int → List RawEntry :=
  fun y => if y == 2025 then [⟨20371, "추석", false⟩] else []

/-- Holiday source with an entry on 2025-02-01 (day 20120), the day the
malformed query (2025, 1, 32) normalizes to. -/
def srcFeb : Int → List RawEntry :=
  fun y => if y == 2025 then [⟨20120, "임시공휴일", false⟩] else []

/-- Holiday source that reports an entry for 2024 only. -/
def srcYear2024 : Int → List RawEntry :=
  fun y => if y == 2024 then [⟨19988, "성탄절", false⟩] else []

/-- Holiday source that reports no holidays at all. -/
def srcEmpty : Int → List RawEntry := fun _ => []

/-- Converter succeeding only on day 6 of any month, with lunar 8-15,
for the Chuseok resolver scenario. -/
def convChuseok : Conv := fun _ _ d => if d == 6 then some ⟨8, 15⟩ else none

/-- Converter succeeding only on day 1 of any month, with lunar 7-1, for
the lunar marker scenario. -/
def convDay1 : Conv := fun _ _ d => if d == 1 then some ⟨7, 1⟩ else none

/-! Helper lemmas about the basic building blocks. -/

theorem mem_insertUnique (l : List String) (s x : String) :
    x ∈ insertUnique l s ↔ x ∈ l ∨ x = s := by
  unfold insertUnique
  by_cases h : s ∈ l
  · simp only [if_pos h]
    constructor
    · exact fun hx => Or.inl hx
    · rintro (hx | rfl)
      · exact hx
      · exact h
  · simp [if_neg h]

theorem insertUnique_ne_nil (l : List String) (s : String) : insertUnique l s ≠ [] := by
  unfold insertUnique
  by_cases h : s ∈ l
  · simp only [if_pos h]
    intro hl
    subst hl
    simp at h
  · simp [if_neg h]

theorem foldl_insertUnique_ne_nil (l : List String) :
    ∀ acc : List String, acc ≠ [] → l.foldl insertUnique acc ≠ [] := by
  induction l with
  | nil => intro acc h; simpa using h
  | cons a l ih => intro acc _; exact ih _ (insertUnique_ne_nil acc a)

theorem mem_foldl_insertUnique (x : String) (l : List String) :
    ∀ acc : List String, x ∈ l.foldl insertUnique acc ↔ x ∈ acc ∨ x ∈ l := by
  induction l with
  | nil => intro acc; simp
  | cons a l ih =>
    intro acc
    simp only [List.foldl_cons, ih, mem_insertUnique, List.mem_cons]
    tauto

theorem mem_dedupKeepFirst (x : String) (l : List String) :
    x ∈ dedupKeepFirst l ↔ x ∈ l := by
  unfold dedupKeepFirst
  simp [mem_foldl_insertUnique]

theorem dedupKeepFirst_ne_nil (a : String) (l : List String) :
    dedupKeepFirst (a :: l) ≠ [] := by
  unfold dedupKeepFirst
  rw [List.foldl_cons]
  exact foldl_insertUnique_ne_nil l _ (insertUnique_ne_nil [] a)

theorem seedTypeFor_ne_empty (h : RawEntry) : seedTypeFor h ≠ HolidayType.empty := by
  unfold seedTypeFor
  split
  · decide
  · split
    · decide
    · split
      · decide
      · decide

theorem seedTypeFor_substituteDay (h : RawEntry)
    (he : seedTypeFor h = HolidayType.substituteDay) : h.substitute = true := by
  cases hs : h.substitute
  · unfold seedTypeFor at he
    rw [hs] at he
    simp only [Bool.false_eq_true, if_false] at he
    split at he
    · exact absurd he (by decide)
    · split at he
      · exact absurd he (by decide)
      · exact absurd he (by decide)
  · rfl

theorem lunarName_cases (conv : Conv) (y m d : Int) :
    (getLunarHolidayInfo conv y m d).name = ""
    ∨ (getLunarHolidayInfo conv y m d).name = "설날"
    ∨ (getLunarHolidayInfo conv y m d).name = "설날 연휴"
    ∨ (getLunarHolidayInfo conv y m d).name = "추석"
    ∨ (getLunarHolidayInfo conv y m d).name = "추석 연휴" := by
  unfold getLunarHolidayInfo
  rcases hc : conv y m d with _ | l
  · simp
  · simp only
    split
    · simp
    · split
      · simp
      · split
        · simp
        · split
          · split
            · simp
            · simp
          · simp

theorem lunarType_cases (conv : Conv) (y m d : Int) :
    (getLunarHolidayInfo conv y m d).type = HolidayType.empty
    ∨ (getLunarHolidayInfo conv y m d).type = HolidayType.lunarNewYear
    ∨ (getLunarHolidayInfo conv y m d).type = HolidayType.chuseok := by
  unfold getLunarHolidayInfo
  rcases hc : conv y m d with _ | l
  · simp
  · simp only
    split
    · simp
    · split
      · simp
      · split
        · simp
        · split
          · split
            · simp
            · simp
          · simp

theorem lunar9_name (conv : Conv) (y m d : Int)
    (h9 : isLunar9Span (conv y m d) = true) :
    (getLunarHolidayInfo conv y m d).name = ""
    ∨ (getLunarHolidayInfo conv y m d).name = "설날 연휴" := by
  rcases hc : conv y m d with _ | l
  · rw [hc] at h9
    exact absurd h9 (by decide)
  · rw [hc] at h9
    unfold isLunar9Span at h9
    simp only [Bool.and_eq_true, beq_iff_eq, Bool.or_eq_true] at h9
    unfold getLunarHolidayInfo
    rw [hc]
    simp only
    rw [h9.1]
    simp only [show ((9 : Int) == 1) = false from rfl, Bool.false_and, Bool.false_eq_true,
      if_false, show ((9 : Int) == 8) = false from rfl]
    split
    · right; rfl
    · split
      · right; rfl
      · left; rfl

theorem substLoop_values (conv : Conv) (hl : List RawEntry) (t : Int) :
    ∀ (r : Nat) (s : Int),
      substLoop conv hl t s r = ⟨"대체공휴일", HolidayType.substituteDay⟩
      ∨ substLoop conv hl t s r = ⟨"", HolidayType.empty⟩ := by
  intro r
  induction r with
  | zero => intro s; right; rfl
  | succ n ih =>
    intro s
    unfold substLoop
    split
    · left; rfl
    · exact ih (s + 1)

theorem substLoop_found_iff (conv : Conv) (hl : List RawEntry) (t : Int) :
    ∀ (r : Nat) (s : Int),
      substLoop conv hl t s r = ⟨"대체공휴일", HolidayType.substituteDay⟩
      ↔ ∃ k : Int, s ≤ k ∧ k < s + (r : Int)
          ∧ checkForSubstituteHoliday conv hl (t - k) t = true := by
  intro r
  induction r with
  | zero =>
    intro s
    constructor
    · intro h
      rw [show substLoop conv hl t s 0 = ⟨"", HolidayType.empty⟩ from rfl] at h
      exact absurd h (by decide)
    · rintro ⟨k, h1, h2, _⟩; omega
  | succ n ih =>
    intro s
    unfold substLoop
    split
    next hchk =>
      constructor
      · intro _
        exact ⟨s, le_refl s, by omega, hchk⟩
      · intro _; rfl
    next hchk =>
      rw [ih (s + 1)]
      constructor
      · rintro ⟨k, h1, h2, hc⟩
        exact ⟨k, by omega, by omega, hc⟩
      · rintro ⟨k, h1, h2, hc⟩
        refine ⟨k, ?_, by omega, hc⟩
        rcases eq_or_lt_of_le h1 with h | h
        · exfalso
          apply hchk
          rw [← h] at hc
          exact hc
        · omega

theorem checkFor_iff (conv : Conv) (hl : List RawEntry) (o t : Int) :
    checkForSubstituteHoliday conv hl o t = true
    ↔ shouldCreateSubstitute (holidaysOnDate conv hl o) (dow o) = true
      ∧ findNextWorkday conv hl 8 o = some t := by
  simp only [checkForSubstituteHoliday]
  split
  next hlen =>
    simp only [Bool.false_eq_true, false_iff]
    rintro ⟨hs, _⟩
    have h0 : holidaysOnDate conv hl o = [] :=
      List.length_eq_zero.1 (by simpa using hlen)
    rw [h0] at hs
    simp [shouldCreateSubstitute] at hs
  next hlen =>
    split
    next hsub =>
      simp only [beq_iff_eq]
      exact ⟨fun h => ⟨hsub, h⟩, fun h => h.2⟩
    next hsub =>
      simp only [Bool.false_eq_true, false_iff]
      rintro ⟨hs, _⟩
      exact hsub hs

theorem seedStep_eq_filterStep (t : Int) (l9 : Bool)
    (acc : List String × HolidayType) (h : RawEntry) :
    seedStep t l9 acc h = if seedPasses t l9 h then seedApply acc h else acc := by
  unfold seedStep seedPasses seedApply
  cases h1 : (h.date == t) <;> cases h2 : strIncludes h.name "제헌절" <;>
    cases h3 : (strIncludes h.name "추석" && l9) <;> simp [h1, h2, h3]

theorem foldl_seedStep_eq (t : Int) (l9 : Bool) :
    ∀ (l : List RawEntry) (acc : List String × HolidayType),
      l.foldl (seedStep t l9) acc = (l.filter (seedPasses t l9)).foldl seedApply acc := by
  intro l
  induction l with
  | nil => intro acc; rfl
  | cons a l ih =>
    intro acc
    rw [List.foldl_cons, seedStep_eq_filterStep, List.filter_cons]
    cases hp : seedPasses t l9 a <;> simp [hp, ih]

theorem foldl_seedApply_fst :
    ∀ (l : List RawEntry) (ns : List String) (tp : HolidayType),
      (l.foldl seedApply (ns, tp)).1 = (l.map RawEntry.name).foldl insertUnique ns := by
  intro l
  induction l with
  | nil => intro ns tp; rfl
  | cons a l ih =>
    intro ns tp
    rw [List.foldl_cons, List.map_cons, List.foldl_cons]
    exact ih (insertUnique ns a.name) _

theorem foldl_seedApply_snd :
    ∀ (l : List RawEntry) (ns : List String) (tp : HolidayType),
      (l.foldl seedApply (ns, tp)).2
        = if tp = HolidayType.empty then seedTypeOf l else tp := by
  intro l
  induction l with
  | nil =>
    intro ns tp
    by_cases h : tp = HolidayType.empty <;> simp [h, seedTypeOf]
  | cons a l ih =>
    intro ns tp
    rw [List.foldl_cons]
    by_cases h : tp = HolidayType.empty
    · subst h
      have hstep : seedApply (ns, HolidayType.empty) a
          = (insertUnique ns a.name, seedTypeFor a) := by
        simp [seedApply]
      rw [hstep, ih]
      rw [if_neg (seedTypeFor_ne_empty a), if_pos rfl]
      rfl
    · have hstep : seedApply (ns, tp) a = (insertUnique ns a.name, tp) := by
        simp only [seedApply]
        rw [if_neg]
        simp only [beq_iff_eq]
        exact h
      rw [hstep, ih, if_neg h, if_neg h]

theorem dedup_map_nil {l : List RawEntry}
    (h : dedupKeepFirst (l.map RawEntry.name) = []) : l = [] := by
  cases l with
  | nil => rfl
  | cons a l =>
    rw [List.map_cons] at h
    exact absurd h (dedupKeepFirst_ne_nil _ _)

theorem aggregator_eq_spec (conv : Conv) (src : Int → List RawEntry)
    (year month day : Int) :
    getAllHolidayInfo conv src year month day = classifySpec conv src year month day := by
  have e : (src year).foldl
      (seedStep (jsDate year (month - 1) day) (isLunar9Span (conv year month day)))
      ([], HolidayType.empty)
      = (dedupKeepFirst ((seedEntries conv src year month day).map RawEntry.name),
         seedTypeOf (seedEntries conv src year month day)) := by
    rw [foldl_seedStep_eq, Prod.ext_iff]
    refine ⟨?_, ?_⟩
    · rw [foldl_seedApply_fst]
      rfl
    · rw [foldl_seedApply_snd]
      simp [seedEntries]
  simp only [getAllHolidayInfo, classifySpec, e]
  by_cases h1 : (getLunarHolidayInfo conv year month day).name != ""
  · by_cases h2 : (dedupKeepFirst ((seedEntries conv src year month day).map RawEntry.name)).any
        (fun h => (strIncludes h "추석" && strIncludes (getLunarHolidayInfo conv year month day).name "추석")
          || (strIncludes h "설날" && strIncludes (getLunarHolidayInfo conv year month day).name "설날")) = true
    · by_cases h3 : dedupKeepFirst ((seedEntries conv src year month day).map RawEntry.name) = []
      · exfalso
        rw [h3] at h2
        simp at h2
      · simp [h1, h2, h3]
    · have hne := insertUnique_ne_nil
        (dedupKeepFirst ((seedEntries conv src year month day).map RawEntry.name))
        (getLunarHolidayInfo conv year month day).name
      simp [h1, h2, hne]
  · by_cases h3 : dedupKeepFirst ((seedEntries conv src year month day).map RawEntry.name) = []
    · have hseed := dedup_map_nil h3
      by_cases h4 : (getSubstituteHolidayInfo conv year month day (src year)).name != ""
      · simp [h1, h3, h4, hseed, seedTypeOf, insertUnique, dedupKeepFirst]
      · simp [h1, h3, h4, hseed, seedTypeOf, dedupKeepFirst]
    · simp [h1, h3]

theorem substInfo_values (conv : Conv) (y m d : Int) (hl : List RawEntry) :
    getSubstituteHolidayInfo conv y m d hl = ⟨"대체공휴일", HolidayType.substituteDay⟩
    ∨ getSubstituteHolidayInfo conv y m d hl = ⟨"", HolidayType.empty⟩ := by
  simp only [getSubstituteHolidayInfo]
  split
  · right; rfl
  · split
    · right; rfl
    · exact substLoop_values conv hl _ 7 1

theorem substInfo_substituteDay_conditions (conv : Conv) (y m d : Int)
    (hl : List RawEntry)
    (h : (getSubstituteHolidayInfo conv y m d hl).type = HolidayType.substituteDay) :
    1 ≤ dow (jsDate y (m - 1) d) ∧ dow (jsDate y (m - 1) d) ≤ 5
    ∧ isDateHoliday conv hl (jsDate y (m - 1) d) = false := by
  simp only [getSubstituteHolidayInfo] at h
  split at h
  next hc => exact absurd h (by decide)
  next hc =>
    split at h
    next hc2 => exact absurd h (by decide)
    next hc2 =>
      simp only [Bool.or_eq_true, decide_eq_true_eq, not_or, not_lt] at hc
      refine ⟨hc.1, ?_, ?_⟩
      · have := hc.2
        omega
      · exact Bool.eq_false_iff.2 hc2

theorem isDateHoliday_filter_out (conv : Conv) (hl : List RawEntry) (t : Int) :
    isDateHoliday conv (hl.filter (fun h => !(strIncludes h.name "제헌절"))) t
    = isDateHoliday conv hl t := by
  unfold isDateHoliday
  congr 1
  induction hl with
  | nil => rfl
  | cons a l ih =>
    rw [List.filter_cons]
    cases ha : strIncludes a.name "제헌절"
    · simp only [ha, Bool.not_false, if_true, List.any_cons, ih]
    · simp only [ha, Bool.not_true, Bool.false_eq_true, if_false, List.any_cons, ih,
        Bool.and_false, Bool.false_or]

theorem holidaysOnDate_filter_out (conv : Conv) (hl : List RawEntry) (o : Int) :
    holidaysOnDate conv (hl.filter (fun h => !(strIncludes h.name "제헌절"))) o
    = holidaysOnDate conv hl o := by
  unfold holidaysOnDate
  congr 1
  induction hl with
  | nil => rfl
  | cons a l ih =>
    rw [List.filter_cons]
    cases ha : strIncludes a.name "제헌절"
    · simp only [ha, Bool.not_false, if_true, List.filterMap_cons, ih]
    · simp only [ha, Bool.not_true, Bool.false_eq_true, if_false, List.filterMap_cons, ih,
        Bool.and_false, if_false]

theorem shouldEntry_iff (lst : List TaggedHoliday) (w : Int) (tp : SubGroup) :
    ((match tp with
      | SubGroup.noSub => false
      | SubGroup.full => w == 0 || w == 6 || decide (1 < lst.length)
      | SubGroup.sundayOnly =>
        if w == 0 then true
        else if decide (1 < lst.length) then
          lst.any (fun other =>
            !(strIncludes other.name "설날") && !(strIncludes other.name "추석"))
        else false) = true)
    ↔ ((tp = SubGroup.full ∧ (w = 6 ∨ w = 0 ∨ 1 < lst.length))
       ∨ (tp = SubGroup.sundayOnly
          ∧ (w = 0 ∨ (1 < lst.length
              ∧ ∃ o ∈ lst, strIncludes o.name "설날" = false
                  ∧ strIncludes o.name "추석" = false)))) := by
  cases tp
  case noSub => simp
  case full =>
    dsimp only
    simp only [Bool.or_eq_true, beq_iff_eq, decide_eq_true_eq]
    constructor
    · intro hc
      left
      exact ⟨by trivial, by tauto⟩
    · rintro (⟨_, hc⟩ | ⟨hbad, _⟩)
      · tauto
      · exact absurd hbad (by decide)
  case sundayOnly =>
    dsimp only
    constructor
    · intro hc
      right
      refine ⟨rfl, ?_⟩
      split at hc
      next h0 => exact Or.inl (by simpa using h0)
      next h0 =>
        split at hc
        next hlen =>
          refine Or.inr ⟨by simpa using hlen, ?_⟩
          rw [List.any_eq_true] at hc
          obtain ⟨o, ho, hco⟩ := hc
          refine ⟨o, ho, ?_⟩
          simpa [Bool.and_eq_true, Bool.not_eq_true'] using hco
        next hlen => exact absurd hc (by decide)
    · rintro (⟨hbad, _⟩ | ⟨_, hrest⟩)
      · exact absurd hbad (by decide)
      · rcases hrest with h0 | ⟨hlen, o, ho, h1, h2⟩
        · simp [h0]
        · by_cases h0 : (w == 0) = true
          · simp [h0]
          · simp only [h0, Bool.false_eq_true, if_false, decide_eq_true_eq, hlen, if_true]
            rw [List.any_eq_true]
            exact ⟨o, ho, by simp [h1, h2]⟩

theorem shouldCreate_iff_exists (lst : List TaggedHoliday) (w : Int) :
    shouldCreateSubstitute lst w = true
    ↔ ∃ h ∈ lst,
        (h.type = SubGroup.full ∧ (w = 6 ∨ w = 0 ∨ 1 < lst.length))
        ∨ (h.type = SubGroup.sundayOnly
           ∧ (w = 0 ∨ (1 < lst.length
               ∧ ∃ o ∈ lst, strIncludes o.name "설날" = false
                   ∧ strIncludes o.name "추석" = false))) := by
  unfold shouldCreateSubstitute
  rw [List.any_eq_true]
  constructor
  · rintro ⟨h, hmem, hcond⟩
    exact ⟨h, hmem, (shouldEntry_iff lst w h.type).1 hcond⟩
  · rintro ⟨h, hmem, hcond⟩
    exact ⟨h, hmem, (shouldEntry_iff lst w h.type).2 hcond⟩

theorem seed_name_clean (conv : Conv) (src : Int → List RawEntry) (y m d : Int)
    (x : String)
    (hmem : x ∈ dedupKeepFirst ((seedEntries conv src y m d).map RawEntry.name)) :
    (!(strIncludes x "제헌절")) = true := by
  rw [mem_dedupKeepFirst] at hmem
  obtain ⟨h', hh', heq⟩ := List.mem_map.1 hmem
  simp only [seedEntries] at hh'
  have hp := (List.mem_filter.1 hh').2
  simp only [seedPasses, Bool.and_eq_true, Bool.not_eq_true'] at hp
  rw [← heq]
  simp [hp.1.2]

theorem classify_names_sub (conv : Conv) (src : Int → List RawEntry) (y m d : Int) :
    ∀ x ∈ (getAllHolidayInfo conv src y m d).names,
      x ∈ dedupKeepFirst ((seedEntries conv src y m d).map RawEntry.name)
      ∨ x = (getLunarHolidayInfo conv y m d).name
      ∨ x = (getSubstituteHolidayInfo conv y m d (src y)).name := by
  rw [aggregator_eq_spec]
  intro x hx
  simp only [classifySpec] at hx
  repeat' split at hx
  all_goals
    first
      | exact Or.inl hx
      | exact False.elim (by simpa using hx)
      | (rcases (mem_insertUnique _ _ _).1 hx with hm | hm
         · exact Or.inl hm
         · exact Or.inr (Or.inl hm))
      | exact Or.inr (Or.inr (by simpa using hx))

theorem classify_names_clean (conv : Conv) (src : Int → List RawEntry) (y m d : Int) :
    ((getAllHolidayInfo conv src y m d).names.all
      (fun nm => !(strIncludes nm "제헌절"))) = true := by
  rw [List.all_eq_true]
  intro x hx
  rcases classify_names_sub conv src y m d x hx with hm | hm | hm
  · exact seed_name_clean conv src y m d x hm
  · rcases lunarName_cases conv y m d with hn | hn | hn | hn | hn <;>
      rw [hn] at hm <;> rw [hm] <;> decide
  · rcases substInfo_values conv y m d (src y) with hv | hv <;>
      rw [hv] at hm <;> rw [hm] <;> decide

/-! Claim theorems. -/

/-- C1: For a date falling Monday to Friday that the engine's holiday test
(Constitution-Day-cleaned source entries plus the lunar span) does not mark
as a holiday, getSubstituteHolidayInfo returns the Substitute Holiday
result exactly when some lookback offset 1..7 reaches an origin whose
holiday set requires substitution under the group rules and whose next
workday (walking forward past weekends and holidays) is the date itself;
when no offset qualifies it returns the empty result. -/
theorem c1_substitute_search (conv : Conv) (holidayList : List RawEntry)
    (year month day : Int)
    (hw1 : 1 ≤ dow (jsDate year (month - 1) day))
    (hw2 : dow (jsDate year (month - 1) day) ≤ 5)
    (hh : isDateHoliday conv holidayList (jsDate year (month - 1) day) = false) :
    (getSubstituteHolidayInfo conv year month day holidayList
        = ⟨"대체공휴일", HolidayType.substituteDay⟩
      ↔ ∃ k : Int, 1 ≤ k ∧ k ≤ 7
          ∧ shouldCreateSubstitute
              (holidaysOnDate conv holidayList (jsDate year (month - 1) day - k))
              (dow (jsDate year (month - 1) day - k)) = true
          ∧ findNextWorkday conv holidayList 8 (jsDate year (month - 1) day - k)
              = some (jsDate year (month - 1) day))
    ∧ (getSubstituteHolidayInfo conv year month day holidayList
          = ⟨"대체공휴일", HolidayType.substituteDay⟩
        ∨ getSubstituteHolidayInfo conv year month day holidayList
          = ⟨"", HolidayType.empty⟩) := by
  have hsub : getSubstituteHolidayInfo conv year month day holidayList
      = substLoop conv holidayList (jsDate year (month - 1) day) 1 7 := by
    simp only [getSubstituteHolidayInfo]
    split
    next hcond =>
      exfalso
      simp only [Bool.or_eq_true, decide_eq_true_eq] at hcond
      omega
    next =>
      split
      next hcond2 =>
        rw [hh] at hcond2
        exact absurd hcond2 (by decide)
      next => rfl
  refine ⟨?_, ?_⟩
  · rw [hsub, substLoop_found_iff]
    constructor
    · rintro ⟨k, h1, h2, hc⟩
      rw [checkFor_iff] at hc
      exact ⟨k, h1, by omega, hc.1, hc.2⟩
    · rintro ⟨k, h1, h2, hs, hf⟩
      exact ⟨k, h1, by omega, (checkFor_iff conv holidayList _ _).2 ⟨hs, hf⟩⟩
  · rw [hsub]
    exact substLoop_values conv holidayList _ 7 1

/-- C1 witness: Liberation Day 2026 falls on Saturday 2026-08-15, so
Monday 2026-08-17 is a substitute holiday (offset 2 qualifies). -/
theorem c1_substitute_search_witness :
    getSubstituteHolidayInfo convNone 2026 8 17 (srcLib 2026)
      = ⟨"대체공휴일", HolidayType.substituteDay⟩ :=
  ((c1_substitute_search convNone (srcLib 2026) 2026 8 17
      (by decide) (by decide) (by decide)).1).2
    ⟨2, by decide, by decide, by decide, by decide⟩

/-- C2: Substitution is required at an origin exactly when some holiday
collected there has group FULL with the origin a Saturday or Sunday or
more than one holiday co-occurring, or group SUNDAY_ONLY with the origin
a Sunday, or with more than one holiday co-occurring of which at least
one name is outside the 설날/추석 families; NONE entries never require
substitution. -/
theorem c2_group_rules (conv : Conv) (hl : List RawEntry) (origin : Int) :
    shouldCreateSubstitute (holidaysOnDate conv hl origin) (dow origin) = true
    ↔ ∃ h ∈ holidaysOnDate conv hl origin,
        (h.type = SubGroup.full
          ∧ (dow origin = 6 ∨ dow origin = 0
             ∨ 1 < (holidaysOnDate conv hl origin).length))
        ∨ (h.type = SubGroup.sundayOnly
           ∧ (dow origin = 0
              ∨ (1 < (holidaysOnDate conv hl origin).length
                 ∧ ∃ o ∈ holidaysOnDate conv hl origin,
                     strIncludes o.name "설날" = false
                     ∧ strIncludes o.name "추석" = false))) :=
  shouldCreate_iff_exists (holidaysOnDate conv hl origin) (dow origin)

theorem seedType_substituteDay (conv : Conv) (src : Int → List RawEntry)
    (y m d : Int)
    (hs : seedTypeOf (seedEntries conv src y m d) = HolidayType.substituteDay) :
    ∃ h ∈ src y, h.date = jsDate y (m - 1) d ∧ h.substitute = true := by
  rcases hseed : seedEntries conv src y m d with _ | ⟨h0, rest⟩
  · rw [hseed] at hs
    exact absurd hs (by decide)
  · rw [hseed] at hs
    have hsubflag := seedTypeFor_substituteDay h0 hs
    have hmem : h0 ∈ seedEntries conv src y m d := by
      rw [hseed]
      exact List.mem_cons_self _ _
    simp only [seedEntries] at hmem
    have hp := List.mem_filter.1 hmem
    refine ⟨h0, hp.1, ?_, hsubflag⟩
    have hpass := hp.2
    simp only [seedPasses, Bool.and_eq_true, beq_iff_eq, Bool.not_eq_true'] at hpass
    exact hpass.1.1

/-- C3 (amended): A SUBSTITUTE classification arises either from a source
entry on the date itself that the source already flagged as a substitute
day, or from the rule engine, in which case the date is a Monday-to-Friday
date that carries no holiday (no non-Constitution-Day source entry and no
lunar-span holiday). -/
theorem c3_substitute_invariant (conv : Conv) (src : Int → List RawEntry)
    (y m d : Int)
    (hs : (getAllHolidayInfo conv src y m d).type = HolidayType.substituteDay) :
    (∃ h ∈ src y, h.date = jsDate y (m - 1) d ∧ h.substitute = true)
    ∨ (1 ≤ dow (jsDate y (m - 1) d) ∧ dow (jsDate y (m - 1) d) ≤ 5
       ∧ isDateHoliday conv (src y) (jsDate y (m - 1) d) = false) := by
  rw [aggregator_eq_spec] at hs
  simp only [classifySpec] at hs
  repeat' split at hs
  all_goals try dsimp only at hs
  all_goals
    first
      | exact absurd hs (by decide)
      | exact Or.inr (substInfo_substituteDay_conditions conv y m d (src y) hs)
      | (exfalso
         rcases lunarType_cases conv y m d with h | h | h <;> rw [h] at hs <;>
           exact absurd hs (by decide))
      | exact Or.inl (seedType_substituteDay conv src y m d hs)

/-- C3 counterexample: a source entry flagged substitute on Saturday
2025-01-04 makes classify return type SUBSTITUTE on a weekend date that
is itself in the holiday set, contradicting the claimed invariant. -/
theorem c3_counterexample :
    (getAllHolidayInfo convNone srcFlagged 2025 1 4).type = HolidayType.substituteDay
    ∧ dow (jsDate 2025 (1 - 1) 4) = 6
    ∧ isDateHoliday convNone (srcFlagged 2025) (jsDate 2025 (1 - 1) 4) = true := by
  decide

/-- C3 witness: the amended invariant applied at the flagged-entry
scenario; the left disjunct holds. -/
theorem c3_substitute_invariant_witness :
    (∃ h ∈ srcFlagged 2025, h.date = jsDate 2025 (1 - 1) 4 ∧ h.substitute = true)
    ∨ (1 ≤ dow (jsDate 2025 (1 - 1) 4) ∧ dow (jsDate 2025 (1 - 1) 4) ≤ 5
       ∧ isDateHoliday convNone (srcFlagged 2025) (jsDate 2025 (1 - 1) 4) = false) :=
  c3_substitute_invariant convNone srcFlagged 2025 1 4 (by decide)

/-- C4 (amended): classify composes its sources in the specified order -
seed names and primary type from the date's surviving source entries with
the first entry deciding the type (substitute flag first, then names
containing 설날 or 신정 typed LUNAR_NEW_YEAR, then 추석 typed CHUSEOK,
else NORMAL), the lunar-span name added only when no same-family name is
seeded, and the substitute engine consulted only when the name set is
still empty, its result then setting type SUBSTITUTE. -/
theorem c4_composition (conv : Conv) (src : Int → List RawEntry)
    (year month day : Int) :
    getAllHolidayInfo conv src year month day
      = classifySpec conv src year month day :=
  aggregator_eq_spec conv src year month day

/-- C4 counterexample: an unflagged New Year entry 신정, whose name is in
neither lunar family, is typed LUNAR_NEW_YEAR rather than NORMAL. -/
theorem c4_counterexample :
    (getAllHolidayInfo convNone srcSinjeong 2025 1 1).type = HolidayType.lunarNewYear
    ∧ strIncludes "신정" "설날" = false
    ∧ strIncludes "신정" "추석" = false
    ∧ (srcSinjeong 2025).all (fun h => !h.substitute) = true := by
  decide

/-- C5 (amended): A Chuseok-named source entry on the query date is
excluded from the classification name set when the query date's lunar
conversion falls on month 9, day 14 to 16; the filter lives only in the
aggregator - the is-holiday test used by the substitute search still
counts the entry. -/
theorem c5_chuseok_filter (conv : Conv) (src : Int → List RawEntry)
    (y m d : Int) (h : RawEntry)
    (hmem : h ∈ src y) (hdate : h.date = jsDate y (m - 1) d)
    (hname : strIncludes h.name "추석" = true)
    (h9 : isLunar9Span (conv y m d) = true)
    (hnotj : strIncludes h.name "제헌절" = false) :
    h.name ∉ (getAllHolidayInfo conv src y m d).names
    ∧ isDateHoliday conv (src y) (jsDate y (m - 1) d) = true := by
  constructor
  · intro hx
    rcases classify_names_sub conv src y m d h.name hx with hm | hm | hm
    · rw [mem_dedupKeepFirst] at hm
      obtain ⟨h', hh', heq⟩ := List.mem_map.1 hm
      simp only [seedEntries] at hh'
      have hpass := (List.mem_filter.1 hh').2
      simp only [seedPasses, Bool.and_eq_true, beq_iff_eq, Bool.not_eq_true'] at hpass
      have h3 := hpass.2
      rw [heq, hname, h9] at h3
      exact absurd h3 (by decide)
    · rcases lunar9_name conv y m d h9 with hn | hn <;> rw [hn] at hm <;>
        rw [hm] at hname <;> exact absurd hname (by decide)
    · rcases substInfo_values conv y m d (src y) with hv | hv <;> rw [hv] at hm <;>
        rw [hm] at hname <;> exact absurd hname (by decide)
  · unfold isDateHoliday
    rw [Bool.or_eq_true]
    left
    rw [List.any_eq_true]
    refine ⟨h, hmem, ?_⟩
    simp [hdate, hnotj]

/-- C5 counterexample: a Chuseok-named entry whose date converts to lunar
month 9 day 14 is still counted by the is-holiday test (the claim says it
is absent from every consumer), while classify indeed reports no names. -/
theorem c5_counterexample :
    isDateHoliday convLunar9 (srcFakeChuseok 2025) (jsDate 2025 (10 - 1) 10) = true
    ∧ (getAllHolidayInfo convLunar9 srcFakeChuseok 2025 10 10).names = [] := by
  decide

/-- C5 witness: the amended statement applied to the 2025-10-10 scenario
with an always-lunar-9-14 converter. -/
theorem c5_chuseok_filter_witness :
    (⟨20371, "추석", false⟩ : RawEntry) ∈ srcFakeChuseok 2025
    ∧ ((⟨20371, "추석", false⟩ : RawEntry).name
          ∉ (getAllHolidayInfo convLunar9 srcFakeChuseok 2025 10 10).names
       ∧ isDateHoliday convLunar9 (srcFakeChuseok 2025) (jsDate 2025 (10 - 1) 10) = true) :=
  ⟨by decide,
   c5_chuseok_filter convLunar9 srcFakeChuseok 2025 10 10 ⟨20371, "추석", false⟩
     (by decide) (by decide) (by decide) (by decide) (by decide)⟩

/-- C6: No name containing the retired Constitution Day name 제헌절 ever
appears in a classification's name set, and removing Constitution-Day
entries from a source list changes neither the is-holiday test nor the
holiday set collected at a substitute-search origin. -/
theorem c6_constitution_day (conv : Conv) (src : Int → List RawEntry)
    (y m d : Int) (hl : List RawEntry) (o t : Int) :
    ((getAllHolidayInfo conv src y m d).names.all
        (fun nm => !(strIncludes nm "제헌절"))) = true
    ∧ isDateHoliday conv (hl.filter (fun h => !(strIncludes h.name "제헌절"))) t
        = isDateHoliday conv hl t
    ∧ holidaysOnDate conv (hl.filter (fun h => !(strIncludes h.name "제헌절"))) o
        = holidaysOnDate conv hl o :=
  ⟨classify_names_clean conv src y m d, isDateHoliday_filter_out conv hl t,
   holidaysOnDate_filter_out conv hl o⟩

/-- C7: When the converter succeeds on the date itself, the lunar holiday
span resolver evaluates its rules in order with first match winning -
Seollal day, the +1 probe, the -1 probe, then the Chuseok month-8
day-14..16 window - and a converter failure on either probe only makes
that probe miss, as probeSeollal maps a failed conversion to false. -/
theorem c7_lunar_span_rules (conv : Conv) (year month day : Int) (l : LunarDate)
    (hc : conv year month day = some l) :
    getLunarHolidayInfo conv year month day =
      if l.month == 1 && l.day == 1 then ⟨"설날", HolidayType.lunarNewYear⟩
      else if probeSeollal (convDay conv (jsDate year (month - 1) (day + 1))) then
        ⟨"설날 연휴", HolidayType.lunarNewYear⟩
      else if probeSeollal (convDay conv (jsDate year (month - 1) (day - 1))) then
        ⟨"설날 연휴", HolidayType.lunarNewYear⟩
      else if l.month == 8 && (l.day == 14 || l.day == 15 || l.day == 16) then
        if l.day == 15 then ⟨"추석", HolidayType.chuseok⟩
        else ⟨"추석 연휴", HolidayType.chuseok⟩
      else ⟨"", HolidayType.empty⟩ := by
  unfold getLunarHolidayInfo
  rw [hc]

/-- C7 witness: a converter succeeding only on day 6 with lunar 8-15;
both probes fail yet the Chuseok rule still fires for 2025-10-06. -/
theorem c7_lunar_span_rules_witness :
    convChuseok 2025 10 6 = some ⟨8, 15⟩
    ∧ getLunarHolidayInfo convChuseok 2025 10 6 = ⟨"추석", HolidayType.chuseok⟩ := by
  refine ⟨by decide, ?_⟩
  rw [c7_lunar_span_rules convChuseok 2025 10 6 ⟨8, 15⟩ (by decide)]
  decide

/-- C8: When the converter succeeds on the date itself, the lunar marker
is the formatted month-dot-day string exactly when the lunar day is 1 or
15 or the next-day probe converts to lunar day 1, and empty otherwise; a
failed next-day probe counts as no boundary, as probeDay1 maps a failed
conversion to false. -/
theorem c8_lunar_marker (conv : Conv) (year month day : Int) (l : LunarDate)
    (hc : conv year month day = some l) :
    getLunarDate conv year month day =
      if l.day == 1 || l.day == 15
          || probeDay1 (convDay conv (jsDate year (month - 1) (day + 1))) then
        lunarMarkerText l.month l.day
      else "" := by
  simp only [getLunarDate, hc]
  cases ha : (l.day == 1) <;> cases hb : (l.day == 15) <;>
    cases hp : probeDay1 (convDay conv (jsDate year (month - 1) (day + 1))) <;>
      simp [ha, hb, hp]

/-- C8 witness: a converter giving lunar 7-1 on day 1 only; the next-day
probe fails and the marker is still produced from the day-1 rule. -/
theorem c8_lunar_marker_witness :
    convDay1 2025 7 1 = some ⟨7, 1⟩
    ∧ getLunarDate convDay1 2025 7 1 = lunarMarkerText 7 1 := by
  refine ⟨by decide, ?_⟩
  rw [c8_lunar_marker convDay1 2025 7 1 ⟨7, 1⟩ (by decide)]
  decide

/-- C9 (amended): classify and the lunar marker perform no input
validation and never raise; an out-of-range day such as (2025, 1, 32) is
folded into the date by the JS Date normalization and processed exactly
like the normalized date (2025, 2, 1), provided the converter answers the
two raw query triples alike; providers are still consulted. -/
theorem c9_no_validation (conv : Conv) (src : Int → List RawEntry)
    (hcv : conv 2025 1 32 = conv 2025 2 1) :
    getAllHolidayInfo conv src 2025 1 32 = getAllHolidayInfo conv src 2025 2 1
    ∧ getLunarDate conv 2025 1 32 = getLunarDate conv 2025 2 1 := by
  have htarget : jsDate 2025 (1 - 1) 32 = jsDate 2025 (2 - 1) 1 := by decide
  have hnext : jsDate 2025 (1 - 1) (32 + 1) = jsDate 2025 (2 - 1) (1 + 1) := by decide
  have hprev : jsDate 2025 (1 - 1) (32 - 1) = jsDate 2025 (2 - 1) (1 - 1) := by decide
  have hlun : getLunarHolidayInfo conv 2025 1 32 = getLunarHolidayInfo conv 2025 2 1 := by
    simp only [getLunarHolidayInfo]
    rw [hcv, hnext, hprev]
  have hsubst : ∀ hl : List RawEntry,
      getSubstituteHolidayInfo conv 2025 1 32 hl
        = getSubstituteHolidayInfo conv 2025 2 1 hl := by
    intro hl
    simp only [getSubstituteHolidayInfo]
    rw [htarget]
  constructor
  · simp only [getAllHolidayInfo]
    rw [hcv, hlun, hsubst (src 2025), htarget]
  · simp only [getLunarDate]
    rw [hcv, hnext]

/-- C9 counterexample: the claim predicts an InvalidDateError before any
provider call on the malformed input (2025, 1, 32); instead classify
returns an ordinary classification built from the Holiday Source entry of
the normalized date 2025-02-01, so providers were consulted and nothing
failed. -/
theorem c9_counterexample :
    (getAllHolidayInfo convNone srcFeb 2025 1 32).name = "임시공휴일"
    ∧ (getAllHolidayInfo convNone srcFeb 2025 1 32).type = HolidayType.normal := by
  decide

/-- C9 witness: the amended statement applied with the always-failing
converter and a February source entry. -/
theorem c9_no_validation_witness :
    getAllHolidayInfo convNone srcFeb 2025 1 32 = getAllHolidayInfo convNone srcFeb 2025 2 1
    ∧ getLunarDate convNone 2025 1 32 = getLunarDate convNone 2025 2 1 :=
  c9_no_validation convNone srcFeb rfl

/-- C10: classify for a date of year y reads the holiday source only
through the year-y list: two sources agreeing on year y produce identical
classifications for every query in year y, whatever they return for any
other year (the lookback and next-workday walk reuse the same year-y
list even when they cross a year boundary). -/
theorem c10_year_isolation (conv : Conv) (src src' : Int → List RawEntry)
    (y m d : Int) (hy : src y = src' y) :
    getAllHolidayInfo conv src y m d = getAllHolidayInfo conv src' y m d := by
  simp only [getAllHolidayInfo]
  rw [hy]

/-- C10 witness: two sources differing in their 2024 data but agreeing on
2025 classify 2025-05-05 identically. -/
theorem c10_year_isolation_witness :
    srcYear2024 2024 ≠ srcEmpty 2024
    ∧ getAllHolidayInfo convNone srcYear2024 2025 5 5
        = getAllHolidayInfo convNone srcEmpty 2025 5 5 :=
  ⟨by decide, c10_year_isolation convNone srcYear2024 srcEmpty 2025 5 5 (by decide)⟩
